import Mathlib

/-!
Shallow embedding of the ics_generator repository (src/courses.py and
src/weekmarks.py) together with the parts of the CPython `datetime` library
that those modules call: proleptic Gregorian ordinals, `date.weekday`, and
`date.isocalendar`.  Calendar dates are represented by their ordinal day
number (`date.toordinal`, day 1 = 0001-01-01, a Monday).  Python integer
division `//` and remainder `%` on a positive divisor agree with `Int.ediv`
and `Int.emod`, which are used throughout.
-/

namespace IcsGen

/-- Python `datetime._is_leap`: leap year predicate of the proleptic
Gregorian calendar. -/
def isLeap (year : Int) : Bool :=
  (year % 4) = 0 ∧ ((year % 100) ≠ 0 ∨ (year % 400) = 0)

/-- Python `datetime._days_before_year(year)`: number of days before
January 1 of `year`; the ordinal of January 1 of `year` is this plus 1. -/
def daysBeforeYear (year : Int) : Int :=
  365 * (year - 1) + ((year - 1) / 4) - ((year - 1) / 100)
    + ((year - 1) / 400)

/-- Python `datetime._days_in_month(year, month)`. -/
def daysInMonth (year month : Int) : Int :=
  if month = 1 then 31
  else if month = 2 then (if isLeap year then 29 else 28)
  else if month = 3 then 31
  else if month = 4 then 30
  else if month = 5 then 31
  else if month = 6 then 30
  else if month = 7 then 31
  else if month = 8 then 31
  else if month = 9 then 30
  else if month = 10 then 31
  else if month = 11 then 30
  else if month = 12 then 31
  else 0

/-- Python `datetime._days_before_month(year, month)`: days in `year`
preceding the first of `month`. -/
def daysBeforeMonth (year month : Int) : Int :=
  (if month = 1 then 0
   else if month = 2 then 31
   else if month = 3 then 59
   else if month = 4 then 90
   else if month = 5 then 120
   else if month = 6 then 151
   else if month = 7 then 181
   else if month = 8 then 212
   else if month = 9 then 243
   else if month = 10 then 273
   else if month = 11 then 304
   else if month = 12 then 334
   else 0)
  + (if 2 < month ∧ isLeap year then 1 else 0)

/-- Python `datetime._ymd2ord(year, month, day)`: ordinal day number of a
calendar date. -/
def ymd2ord (year month day : Int) : Int :=
  daysBeforeYear year + daysBeforeMonth year month + day

/-- Python `date.weekday()` of the date with ordinal `d`: 0 = Monday ..
6 = Sunday. -/
def pyWeekday (d : Int) : Int :=
  ((d + 6) % 7)

/-- The calendar year containing ordinal day `n`; the year component of
Python `datetime._ord2ymd(n)`, following its 400/100/4/1-year cycle
arithmetic including the two end-of-cycle corrections. -/
def ordToYear (n : Int) : Int :=
  400 * ((n - 1) / 146097)
    + 100 * ((((n - 1) % 146097)) / 36524)
    + 4 * ((((((n - 1) % 146097)) % 36524)) / 1461)
    + ((((((((n - 1) % 146097)) % 36524)) % 1461)) / 365)
    + 1
    + (if ((((((((n - 1) % 146097)) % 36524)) % 1461)) / 365) = 4
          ∨ ((((n - 1) % 146097)) / 36524) = 4
       then -1 else 0)

/-- Python `datetime._isoweek1monday(year)`: ordinal of the Monday starting
ISO week 1 of `year` (the week containing the first Thursday). -/
def isoweek1monday (year : Int) : Int :=
  if 3 < ((daysBeforeYear year + 1 + 6) % 7)
  then daysBeforeYear year + 1 - ((daysBeforeYear year + 1 + 6) % 7) + 7
  else daysBeforeYear year + 1 - ((daysBeforeYear year + 1 + 6) % 7)

/-- The ISO week number component of Python `date.isocalendar()` for the
date with ordinal `t`: week of the preceding ISO year when `t` falls before
week 1 of its calendar year, week 1 of the following ISO year when `t`
falls at or beyond the following January's week-1 Monday. -/
def isoWeek (t : Int) : Int :=
  if t < isoweek1monday (ordToYear t) then
    ((t - isoweek1monday (ordToYear t - 1)) / 7) + 1
  else if 52 ≤ ((t - isoweek1monday (ordToYear t)) / 7)
          ∧ isoweek1monday (ordToYear t + 1) ≤ t then
    1
  else
    ((t - isoweek1monday (ordToYear t)) / 7) + 1

/-! String utilities.  Python strings are modelled over `List Char`
restricted to ASCII behaviour: `str.strip` strips the six ASCII whitespace
characters, `\d` in the strptime regexes and `str.isdigit` checks match
ASCII decimal digits. -/

/-- ASCII whitespace characters stripped by Python `str.strip()`. -/
def isPySpace (c : Char) : Bool :=
  c = ' ' ∨ c = '\t' ∨ c = '\n' ∨ c = '\r' ∨ c = '\x0b' ∨ c = '\x0c'

/-- Python `str.strip()`: remove leading and trailing whitespace. -/
def stripChars (l : List Char) : List Char :=
  ((l.dropWhile isPySpace).reverse.dropWhile isPySpace).reverse

/-- Numeric value of a list of ASCII digits, most significant first. -/
def digitsVal (l : List Char) : Nat :=
  l.foldl (fun a c => 10 * a + (c.toNat - 48)) 0

/-- Continuation of `pyDigits`: digits optionally separated by single
underscores, as accepted by Python `int()` after the first digit. -/
def pyDigitsGo (acc : Nat) : List Char → Option Nat
  | [] => some acc
  | '_' :: c :: cs =>
      if c.isDigit then pyDigitsGo (10 * acc + (c.toNat - 48)) cs else none
  | ['_'] => none
  | c :: cs =>
      if c.isDigit then pyDigitsGo (10 * acc + (c.toNat - 48)) cs else none

/-- Digit-sequence part of Python `int()`: a nonempty digit string in which
single underscores may appear between digits. -/
def pyDigits : List Char → Option Nat
  | [] => none
  | c :: cs => if c.isDigit then pyDigitsGo (c.toNat - 48) cs else none

/-- Python `int(s)` on a base-10 string: surrounding whitespace stripped,
optional sign, digits with optional single underscores between them. -/
def pyInt (l : List Char) : Option Int :=
  match stripChars l with
  | '+' :: rest => (pyDigits rest).map Int.ofNat
  | '-' :: rest => (pyDigits rest).map (fun n => -(Int.ofNat n))
  | rest => (pyDigits rest).map Int.ofNat

/-- Split a character list on a separator character, Python `str.split`. -/
def splitOnChar (sep : Char) : List Char → List (List Char)
  | [] => [[]]
  | c :: cs =>
      if c = sep then [] :: splitOnChar sep cs
      else
        match splitOnChar sep cs with
        | [] => [[c]]
        | g :: gs => (c :: g) :: gs

/-- A field of 1 or 2 ASCII digits whose value lies in `[lo, hi]`: the
language matched by the numeric field regexes of Python `_strptime`
(`%m`, `%d`, `%H`, `%M`), combined with the range implied by the regex. -/
def digits12InRange (l : List Char) (lo hi : Nat) : Bool :=
  (l.length = 1 ∨ l.length = 2) ∧ l.all Char.isDigit
    ∧ lo ≤ digitsVal l ∧ digitsVal l ≤ hi

/-- Python `datetime.strptime(s, "%Y-%m-%d").date()` as an ordinal:
exactly 4 digits for `%Y`, 1 or 2 digits for `%m` in 1..12 and `%d` in
1..31, full-string match, then `date()` range validation (year at least 1,
day within the month).  Returns the ordinal of the parsed date. -/
def parseDate (s : String) : Option Int :=
  match splitOnChar '-' s.data with
  | [ys, ms, ds] =>
      if ys.length = 4 ∧ ys.all Char.isDigit
          ∧ digits12InRange ms 1 12 ∧ digits12InRange ds 1 31
          ∧ 1 ≤ digitsVal ys
          ∧ (Int.ofNat (digitsVal ds))
              ≤ daysInMonth (Int.ofNat (digitsVal ys)) (Int.ofNat (digitsVal ms))
      then some (ymd2ord (Int.ofNat (digitsVal ys)) (Int.ofNat (digitsVal ms))
                   (Int.ofNat (digitsVal ds)))
      else none
  | _ => none

/-- Python `datetime.strptime(s, "%H:%M").time()`: 1 or 2 digits for `%H`
in 0..23 and `%M` in 0..59, full-string match.  Returns (hour, minute). -/
def parseTime (s : String) : Option (Int × Int) :=
  match splitOnChar ':' s.data with
  | [hs, ms] =>
      if digits12InRange hs 0 23 ∧ digits12InRange ms 0 59
      then some (Int.ofNat (digitsVal hs), Int.ofNat (digitsVal ms))
      else none
  | _ => none

/-- Decimal digits of a natural number, via explicit fuel. -/
def natToCharsAux : Nat → Nat → List Char
  | 0, _ => []
  | fuel + 1, n =>
      if n = 0 then []
      else natToCharsAux fuel (n / 10) ++ [Char.ofNat (48 + n % 10)]

/-- Decimal rendering of a natural number, Python `str(n)` for `n >= 0`. -/
def natToChars (n : Nat) : List Char :=
  if n = 0 then ['0'] else natToCharsAux (n + 1) n

/-- Python `str(i)` for an integer. -/
def intToChars (i : Int) : List Char :=
  if i < 0 then '-' :: natToChars i.natAbs else natToChars i.natAbs

/-! The course schedule builder, src/courses.py. -/

/-- Parity class of a weekday token: `"all"`, `"odd"` or `"even"` in the
source. -/
inductive WeekType where
  | all
  | odd
  | even
deriving DecidableEq

/-- Errors raised (via stderr message and `sys.exit(1)`) by
src/courses.py; the aborted run is modelled as an `Except.error`. -/
inductive CourseErr where
  | missingKeys (ks : List String)
  | weekdayNotList
  | badDateTime
  | badWeekdayToken (s : String)
deriving DecidableEq

/-- A course schedule JSON document, modelled with typed optional fields:
a field is `none` when the key is absent.  The `weekday` key may hold a
list of token strings or a non-list value. -/
inductive WeekdayField where
  | notAList
  | items (xs : List String)
deriving DecidableEq

structure CourseDoc where
  course_name : Option String
  location : Option String
  start_date : Option String
  weekday : Option WeekdayField
  start_time : Option String
  end_time : Option String
  total_weeks : Option Int
deriving DecidableEq

/-- `SCHEDULE_REQUIRED_KEYS` of src/courses.py. -/
def SCHEDULE_REQUIRED_KEYS : List String :=
  ["course_name", "location", "start_date", "weekday", "start_time",
   "end_time", "total_weeks"]

/-- Key membership test, Python `key in data`, for the keys that
`validate_json` queries. -/
def hasKey (data : CourseDoc) (k : String) : Bool :=
  if k = "course_name" then data.course_name.isSome
  else if k = "location" then data.location.isSome
  else if k = "start_date" then data.start_date.isSome
  else if k = "weekday" then data.weekday.isSome
  else if k = "start_time" then data.start_time.isSome
  else if k = "end_time" then data.end_time.isSome
  else if k = "total_weeks" then data.total_weeks.isSome
  else false

/-- The `missing_keys` list computed by `validate_json`. -/
def scheduleMissingKeys (data : CourseDoc) : List String :=
  SCHEDULE_REQUIRED_KEYS.filter (fun k => ¬ hasKey data k)

/-- `validate_json(data, SCHEDULE_REQUIRED_KEYS)` of src/courses.py:
reject when a required key is missing, then when `weekday` is not a
list. -/
def validate_json (data : CourseDoc) : Except CourseErr Unit :=
  if scheduleMissingKeys data ≠ [] then
    .error (.missingKeys (scheduleMissingKeys data))
  else
    match data.weekday with
    | some (.items _) => .ok ()
    | _ => .error .weekdayNotList

/-- The entries of the `weekday` field (defined when validation passed). -/
def weekdayItems (data : CourseDoc) : List String :=
  match data.weekday with
  | some (.items xs) => xs
  | _ => []

/-- The `weekday_map` RRULE abbreviation of src/courses.py line 53. -/
def weekdayAbbrev (n : Int) : String :=
  if n = 1 then "MO"
  else if n = 2 then "TU"
  else if n = 3 then "WE"
  else if n = 4 then "TH"
  else if n = 5 then "FR"
  else if n = 6 then "SA"
  else "SU"

/-- Suffix analysis of `parse_weekday_string`: strip a trailing `"**"`
(parity even), else a trailing `"*"` (parity odd), else no suffix. -/
def splitParitySuffix (t : List Char) : List Char × WeekType :=
  match t.reverse with
  | '*' :: '*' :: r => (r.reverse, .even)
  | '*' :: r => (r.reverse, .odd)
  | _ => (t, .all)

/-- `parse_weekday_string(s)` of src/courses.py: strip whitespace, strip
the parity suffix, convert the remainder with `int()`, require 1..7, and
return (day number, parity, RRULE weekday abbreviation). -/
def parse_weekday_string (s : String) : Except CourseErr (Int × WeekType × String) :=
  match splitParitySuffix (stripChars s.data) with
  | (dayStr, weekType) =>
      match pyInt dayStr with
      | some dayNum =>
          if 1 ≤ dayNum ∧ dayNum ≤ 7 then
            .ok (dayNum, weekType, weekdayAbbrev dayNum)
          else .error (.badWeekdayToken (String.mk (stripChars s.data)))
      | none => .error (.badWeekdayToken (String.mk (stripChars s.data)))

/-- Line 87: `week_start_date = reference_date - timedelta(days=reference_date.weekday())`,
the Monday of the week containing the reference date. -/
def weekStartDate (referenceDate : Int) : Int :=
  referenceDate - pyWeekday referenceDate

/-- Lines 92..94: the candidate first-occurrence date before parity
adjustment, `week_start + ((day - 1) - week_start.weekday() + 7) % 7`. -/
def rawCandidate (weekStart day : Int) : Int :=
  weekStart + ((day - 1 - pyWeekday weekStart + 7) % 7)

/-- Lines 97..100: advance the candidate by one week when its ISO week
number does not have the parity the token requests. -/
def adjustParity (weekType : WeekType) (d : Int) : Int :=
  if weekType = WeekType.even ∧ ((isoWeek d) % 2) ≠ 0 then d + 7
  else if weekType = WeekType.odd ∧ ((isoWeek d) % 2) = 0 then d + 7
  else d

/-- The `first_class_date` reached for a reference date, day number and
parity class. -/
def firstClassDate (referenceDate day : Int) (weekType : WeekType) : Int :=
  adjustParity weekType (rawCandidate (weekStartDate referenceDate) day)

/-- An `icalendar.Event` as populated by `process_course_data`: dates are
ordinals, times are (hour, minute) pairs, `dtstamp` is an opaque creation
timestamp. -/
structure CourseEvent where
  summary : String
  location : String
  dtstartDate : Int
  dtstartTime : Int × Int
  dtendDate : Int
  dtendTime : Int × Int
  dtstamp : Int
  rruleFreq : String
  rruleInterval : Int
  rruleCount : Int
deriving DecidableEq

/-- The event built in one iteration of the loop of
`process_course_data` (lines 102..125) for an already-parsed weekday
token. -/
def courseEventFor (now : Int) (courseName location : String)
    (totalWeeks : Int) (startTime endTime : Int × Int)
    (referenceDate day : Int) (weekType : WeekType) : CourseEvent :=
  { summary := courseName
    location := location
    dtstartDate := firstClassDate referenceDate day weekType
    dtstartTime := startTime
    dtendDate := firstClassDate referenceDate day weekType
    dtendTime := endTime
    dtstamp := now
    rruleFreq := "WEEKLY"
    rruleInterval := if weekType = WeekType.all then 1 else 2
    rruleCount := if weekType = WeekType.all then totalWeeks
                  else ((totalWeeks + 1) / 2) }

/-- `process_course_data(data)` of src/courses.py.  `now` abstracts
`datetime.now()`; the informational `print` trace is a discarded side
channel.  A `sys.exit(1)` anywhere aborts the whole call, returning no
event list, which is modelled by `Except.error`. -/
def process_course_data (now : Int) (data : CourseDoc) :
    Except CourseErr (List CourseEvent) :=
  match validate_json data with
  | .error e => .error e
  | .ok _ =>
    match parseTime (data.start_time.getD ""), parseTime (data.end_time.getD ""),
        parseDate (data.start_date.getD "") with
    | some startTime, some endTime, some referenceDate =>
        (weekdayItems data).mapM (fun item =>
          match parse_weekday_string item with
          | .error e => .error e
          | .ok pw =>
              .ok (courseEventFor now (data.course_name.getD "")
                    (data.location.getD "") (data.total_weeks.getD 0)
                    startTime endTime referenceDate pw.1 pw.2.1))
    | _, _, _ => .error .badDateTime

/-! The week-marker builder, src/weekmarks.py. -/

/-- Errors of `process_weekmarks_data`: a missing `start_date` key
(`SystemExit`) or an unparseable date (re-raised `ValueError`). -/
inductive WeekmarksErr where
  | missingStartDate
  | badStartDate
deriving DecidableEq

/-- A weekmarks JSON document with its optional fields. -/
structure WeekmarksDoc where
  start_date : Option String
  name : Option String
  start_number : Option Int
  total_weeks : Option Int
deriving DecidableEq

/-- A whole-week all-day `icalendar.Event` as populated by
`process_weekmarks_data`; `dtend` is the exclusive end date. -/
structure WeekEvent where
  summary : String
  dtstart : Int
  dtend : Int
  dtstamp : Int
deriving DecidableEq

/-- Python `range(n)` as a list of integers. -/
def pyRange (n : Int) : List Int :=
  (List.range n.toNat).map Int.ofNat

/-- Replace the first occurrence of the placeholder `"\x7b\x7d"` with the
replacement characters: the effect of Python `tpl.format(arg)` on a
template containing one plain placeholder. -/
def replaceFirstPlaceholder : List Char → List Char → List Char
  | [], _ => []
  | '\x7b' :: '\x7d' :: rest, r => r ++ rest
  | c :: rest, r => c :: replaceFirstPlaceholder rest r

/-- Python `name_tpl.format(week_number)` for a plain `"\x7b\x7d"`
placeholder template. -/
def pyFormat (tpl : String) (n : Int) : String :=
  String.mk (replaceFirstPlaceholder tpl.data (intToChars n))

/-- `process_weekmarks_data(data)` of src/weekmarks.py: anchor at the
Monday of the week of `start_date` and emit one whole-week event per week
index in `range(total_weeks)`, with defaults `name="Week \x7b\x7d"`,
`start_number=0`, `total_weeks=1`. -/
def process_weekmarks_data (now : Int) (data : WeekmarksDoc) :
    Except WeekmarksErr (List WeekEvent) :=
  match data.start_date with
  | none => .error .missingStartDate
  | some sd =>
    match parseDate sd with
    | none => .error .badStartDate
    | some startDate =>
        .ok ((pyRange (data.total_weeks.getD 1)).map (fun i =>
          { summary := pyFormat (data.name.getD "Week \x7b\x7d")
                         (data.start_number.getD 0 + i)
            dtstart := weekStartDate startDate + 7 * i
            dtend := weekStartDate startDate + 7 * i + 7
            dtstamp := now }))

/-! Auxiliary definitions used to state determinism of the course builder
up to the informational creation timestamp. -/

/-- Forget the informational `dtstamp` of a course event. -/
def eraseStamp (e : CourseEvent) : CourseEvent :=
  { e with dtstamp := 0 }

/-- Forget the informational `dtstamp`s of a course builder result. -/
def stripStamps :
    Except CourseErr (List CourseEvent) → Except CourseErr (List CourseEvent)
  | .ok evs => .ok (evs.map eraseStamp)
  | .error e => .error e

/-! Concrete input documents used in scenario checks. -/

/-- A course schedule document for the specification scenario: reference
date 2024-09-02 (a Monday) and the three tokens "1", "1*", "3**". -/
def scenarioCourseDoc : CourseDoc :=
  { course_name := some "Algorithms"
    location := some "Room 101"
    start_date := some "2024-09-02"
    weekday := some (.items ["1", "1*", "3**"])
    start_time := some "08:00"
    end_time := some "09:40"
    total_weeks := some 16 }

/-- A week-marker document for the specification scenario: start date
2024-09-04 (a Wednesday), three weeks numbered from 1. -/
def scenarioWeekmarksDoc : WeekmarksDoc :=
  { start_date := some "2024-09-04"
    name := some "Week \x7b\x7d"
    start_number := some 1
    total_weeks := some 3 }

/-- A course schedule document whose reference date 2020-12-28 lies in ISO
week 53 of 2020, with an even-parity Monday token. -/
def week53CourseDoc : CourseDoc :=
  { course_name := some "Seminar"
    location := some "Hall 2"
    start_date := some "2020-12-28"
    weekday := some (.items ["1**"])
    start_time := some "10:00"
    end_time := some "11:00"
    total_weeks := some 4 }

/-! Arithmetic facts about the embedded CPython calendar functions, leading
to the week-increment behaviour of `isoWeek`. -/

/-- Quotient characterization: if `D` lies in the window of `q`, the
Euclidean quotient of `D` by `m` is `q`. -/
theorem ediv_eq_of_window (m q D : Int) (hm : 0 < m) (h1 : m * q ≤ D)
    (h2 : D < m * (q + 1)) : D / m = q := by
  rw [mul_add, mul_one] at h2
  rw [show D = (D - m * q) + q * m by ring,
    Int.add_mul_ediv_right _ _ (by positivity : m ≠ 0),
    Int.ediv_eq_zero_of_lt (by linarith) (by linarith)]
  ring

/-- Closed form of `daysBeforeYear` on a year decomposed into 400-, 100-,
4- and 1-year cycle counts, with the leap corrections made explicit. -/
theorem daysBeforeYear_decomp (a b c d : Int) (hb0 : 0 ≤ b) (hb : b ≤ 4)
    (hc0 : 0 ≤ c) (hc : c ≤ 24) (hd0 : 0 ≤ d) (hd : d ≤ 4) :
    daysBeforeYear (400 * a + 100 * b + 4 * c + d + 1)
      = 146097 * a + 36524 * b + 1461 * c + 365 * d
        + (if d = 4 then 1 else 0)
        - (if c = 24 ∧ d = 4 then 1 else 0)
        + (if b = 4 ∨ (b = 3 ∧ c = 24 ∧ d = 4) then 1 else 0) := by
  unfold daysBeforeYear
  have h4 : (400 * a + 100 * b + 4 * c + d + 1 - 1) / 4
      = 100 * a + 25 * b + c + (if d = 4 then 1 else 0) := by
    split <;>
      refine ediv_eq_of_window _ _ _ (by norm_num) (by omega) (by omega)
  have h100 : (400 * a + 100 * b + 4 * c + d + 1 - 1) / 100
      = 4 * a + b + (if c = 24 ∧ d = 4 then 1 else 0) := by
    split <;> refine ediv_eq_of_window _ _ _ (by norm_num) (by omega) (by omega)
  have h400 : (400 * a + 100 * b + 4 * c + d + 1 - 1) / 400
      = a + (if b = 4 ∨ (b = 3 ∧ c = 24 ∧ d = 4) then 1 else 0) := by
    split <;> refine ediv_eq_of_window _ _ _ (by norm_num) (by omega) (by omega)
  rw [h4, h100, h400]
  split_ifs <;> ring_nf <;> omega

/-- `ordToYear` is correct: ordinal `n` lies strictly after the days that
precede its year and not after the days that precede the next year. -/
theorem ordToYear_spec (n : Int) :
    daysBeforeYear (ordToYear n) < n ∧ n ≤ daysBeforeYear (ordToYear n + 1) := by
  have ha : (n - 1) = 146097 * ((n - 1) / 146097) + (n - 1) % 146097 :=
    (Int.ediv_add_emod _ _).symm
  have hr1 : 0 ≤ (n - 1) % 146097 ∧ (n - 1) % 146097 < 146097 :=
    ⟨Int.emod_nonneg _ (by norm_num), Int.emod_lt_of_pos _ (by norm_num)⟩
  have hb : (n - 1) % 146097 = 36524 * ((n - 1) % 146097 / 36524) + (n - 1) % 146097 % 36524 :=
    (Int.ediv_add_emod _ _).symm
  have hr2 : 0 ≤ (n - 1) % 146097 % 36524 ∧ (n - 1) % 146097 % 36524 < 36524 :=
    ⟨Int.emod_nonneg _ (by norm_num), Int.emod_lt_of_pos _ (by norm_num)⟩
  have hc : (n - 1) % 146097 % 36524 =
      1461 * ((n - 1) % 146097 % 36524 / 1461) + (n - 1) % 146097 % 36524 % 1461 :=
    (Int.ediv_add_emod _ _).symm
  have hr3 : 0 ≤ (n - 1) % 146097 % 36524 % 1461 ∧ (n - 1) % 146097 % 36524 % 1461 < 1461 :=
    ⟨Int.emod_nonneg _ (by norm_num), Int.emod_lt_of_pos _ (by norm_num)⟩
  have hd : (n - 1) % 146097 % 36524 % 1461 =
      365 * ((n - 1) % 146097 % 36524 % 1461 / 365) + (n - 1) % 146097 % 36524 % 1461 % 365 :=
    (Int.ediv_add_emod _ _).symm
  have hr4 : 0 ≤ (n - 1) % 146097 % 36524 % 1461 % 365 ∧ (n - 1) % 146097 % 36524 % 1461 % 365 < 365 :=
    ⟨Int.emod_nonneg _ (by norm_num), Int.emod_lt_of_pos _ (by norm_num)⟩
  unfold ordToYear
  generalize hA : (n - 1) / 146097 = a at *
  generalize hR1 : (n - 1) % 146097 = r1 at *
  generalize hB : r1 / 36524 = b at *
  generalize hR2 : r1 % 36524 = r2 at *
  generalize hC : r2 / 1461 = c at *
  generalize hR3 : r2 % 1461 = r3 at *
  generalize hD : r3 / 365 = d at *
  generalize hR4 : r3 % 365 = r4 at *
  have hbb : 0 ≤ b ∧ b ≤ 4 := by omega
  have hcc : 0 ≤ c ∧ c ≤ 24 := by omega
  have hdd : 0 ≤ d ∧ d ≤ 4 := by omega
  by_cases h4 : d = 4 ∨ b = 4
  · rw [if_pos h4]
    rcases h4 with h | h
    · have hr3v : r3 = 1460 := by omega
      subst h
      rw [show (400 * a + 100 * b + 4 * c + 4 + 1 + -1 : Int)
            = 400 * a + 100 * b + 4 * c + 3 + 1 by ring,
          daysBeforeYear_decomp a b c 3 hbb.1 (by omega) hcc.1 hcc.2 (by norm_num) (by norm_num),
          show (400 * a + 100 * b + 4 * c + 3 + 1 + 1 : Int)
            = 400 * a + 100 * b + 4 * c + 4 + 1 by ring,
          daysBeforeYear_decomp a b c 4 hbb.1 (by omega) hcc.1 hcc.2 (by norm_num) (by norm_num)]
      split_ifs <;> omega
    · have hr1v : r1 = 146096 := by omega
      have hrest : r2 = 0 ∧ c = 0 ∧ r3 = 0 ∧ d = 0 := by omega
      subst h
      obtain ⟨e2, e3, e4, e5⟩ := hrest
      subst e3; subst e5
      rw [show (400 * a + 100 * 4 + 4 * 0 + 0 + 1 + -1 : Int)
            = 400 * a + 100 * 3 + 4 * 24 + 3 + 1 by ring,
          daysBeforeYear_decomp a 3 24 3 (by norm_num) (by norm_num) (by norm_num) (by norm_num)
            (by norm_num) (by norm_num),
          show (400 * a + 100 * 3 + 4 * 24 + 3 + 1 + 1 : Int)
            = 400 * (a + 1) + 100 * 0 + 4 * 0 + 0 + 1 by ring,
          daysBeforeYear_decomp (a + 1) 0 0 0 (by norm_num) (by norm_num) (by norm_num)
            (by norm_num) (by norm_num) (by norm_num)]
      split_ifs <;> omega
  · rw [if_neg h4]
    have hdd3 : d ≤ 3 := by omega
    have hbb3 : b ≤ 3 := by omega
    rw [show (400 * a + 100 * b + 4 * c + d + 1 + 0 : Int)
          = 400 * a + 100 * b + 4 * c + d + 1 by ring,
        daysBeforeYear_decomp a b c d hbb.1 hbb.2 hcc.1 hcc.2 hdd.1 hdd.2,
        show (400 * a + 100 * b + 4 * c + d + 1 + 1 : Int)
          = 400 * a + 100 * b + 4 * c + (d + 1) + 1 by ring,
        daysBeforeYear_decomp a b c (d + 1) hbb.1 (by omega) hcc.1 hcc.2 (by omega) (by omega)]
    split_ifs <;> omega

/-- A calendar year has 365 or 366 days. -/
theorem yearLen (y : Int) :
    daysBeforeYear (y + 1) - daysBeforeYear y = 365 ∨
    daysBeforeYear (y + 1) - daysBeforeYear y = 366 := by
  unfold daysBeforeYear
  omega

/-- `daysBeforeYear` is monotone. -/
theorem daysBeforeYear_mono (u v : Int) (h : u ≤ v) :
    daysBeforeYear u ≤ daysBeforeYear v := by
  unfold daysBeforeYear
  have h4 := Int.ediv_le_ediv (by norm_num : (0:Int) < 4) (by omega : u - 1 ≤ v - 1)
  have h100 := Int.ediv_le_ediv (by norm_num : (0:Int) < 100) (by omega : u - 1 ≤ v - 1)
  have h400 := Int.ediv_le_ediv (by norm_num : (0:Int) < 400) (by omega : u - 1 ≤ v - 1)
  omega

/-- The year of an ordinal is determined by the `daysBeforeYear` window. -/
theorem ordToYear_unique (n y : Int) (h1 : daysBeforeYear y < n)
    (h2 : n ≤ daysBeforeYear (y + 1)) : ordToYear n = y := by
  have hs := ordToYear_spec n
  by_contra hne
  rcases lt_or_gt_of_ne hne with h | h
  · have := daysBeforeYear_mono (ordToYear n + 1) y (by omega)
    omega
  · have := daysBeforeYear_mono (y + 1) (ordToYear n) (by omega)
    omega

/-- The week-1 Monday of a year lies within 3 days of its January 1. -/
theorem isoweek1monday_near (y : Int) :
    daysBeforeYear y - 2 ≤ isoweek1monday y ∧ isoweek1monday y ≤ daysBeforeYear y + 4 := by
  unfold isoweek1monday
  split <;> omega

/-- Consecutive week-1 Mondays are 52 or 53 weeks apart. -/
theorem isoweek1monday_step (y : Int) :
    isoweek1monday (y + 1) - isoweek1monday y = 364 ∨
    isoweek1monday (y + 1) - isoweek1monday y = 371 := by
  have hl := yearLen y
  unfold isoweek1monday
  split <;> split <;> omega

/-- Advancing a date by 7 days advances its ISO week number by one, except
that from the last ISO week of an ISO year (week 52 or 53) it wraps to
week 1. -/
theorem isoWeek_step (d : Int) :
    isoWeek (d + 7) = isoWeek d + 1 ∨
    (isoWeek (d + 7) = 1 ∧ (isoWeek d = 52 ∨ isoWeek d = 53)) := by
  obtain ⟨y, hy⟩ : ∃ y, ordToYear d = y := ⟨_, rfl⟩
  have hs : daysBeforeYear y < d ∧ d ≤ daysBeforeYear (y + 1) := by
    have := ordToYear_spec d; rw [hy] at this; exact this
  have hlen1 := yearLen y
  have hlen2 := yearLen (y + 1)
  have hy7 : ordToYear (d + 7) = y ∨ ordToYear (d + 7) = y + 1 := by
    by_cases hc : d + 7 ≤ daysBeforeYear (y + 1)
    · exact Or.inl (ordToYear_unique _ _ (by omega) hc)
    · refine Or.inr (ordToYear_unique _ _ (by omega) (by omega))
  have hn0 := isoweek1monday_near (y - 1)
  have hn1 := isoweek1monday_near y
  have hn2 := isoweek1monday_near (y + 1)
  have hn3 := isoweek1monday_near (y + 2)
  have hw0 := isoweek1monday_step (y - 1)
  have hw1 := isoweek1monday_step y
  have hw2 := isoweek1monday_step (y + 1)
  have hlen0 := yearLen (y - 1)
  rw [show y - 1 + 1 = y by ring] at hw0 hlen0
  rw [show y + 1 + 1 = y + 2 by ring] at hw2 hlen2
  have hs7 := ordToYear_spec (d + 7)
  unfold isoWeek
  rcases hy7 with h7 | h7
  · rw [h7] at hs7
    rw [hy, h7]
    split_ifs <;> omega
  · rw [h7] at hs7
    rw [show y + 1 + 1 = y + 2 by ring] at hs7
    rw [hy, h7]
    rw [show y + 1 - 1 = y by ring, show y + 1 + 1 = y + 2 by ring]
    split_ifs <;> omega

/-! Facts about `List.mapM` over `Except`, modelling the first-error
abort semantics of the builder loop. -/

/-- If some element of the list fails, the whole traversal fails. -/
theorem mapM_error_of_mem {α β : Type} (f : α → Except CourseErr β)
    (l : List α) (x : α) (hx : x ∈ l) (e : CourseErr) (he : f x = .error e) :
    ∃ e', l.mapM f = .error e' := by
  induction l with
  | nil => cases hx
  | cons a as ih =>
      rw [List.mapM_cons]
      rcases List.mem_cons.mp hx with h | h
      · subst h
        exact ⟨e, by rw [he]; rfl⟩
      · cases hfa : f a with
        | error e2 => exact ⟨e2, rfl⟩
        | ok b =>
            obtain ⟨e', h'⟩ := ih h
            exact ⟨e', by rw [h']; rfl⟩

/-- A successful traversal visits every element successfully and returns
their results in order. -/
theorem mapM_ok_of_all_ok {α β : Type} (f : α → Except CourseErr β)
    (l : List α) (h : ∀ x ∈ l, ∃ y, f x = .ok y) :
    ∃ ys, l.mapM f = .ok ys ∧ ys.length = l.length ∧
      ∀ i (hi : i < l.length) (hj : i < ys.length),
        f (l.get ⟨i, hi⟩) = .ok (ys.get ⟨i, hj⟩) := by
  induction l with
  | nil => exact ⟨[], rfl, rfl, fun i hi _ => absurd hi (Nat.not_lt_zero i)⟩
  | cons a as ih =>
      obtain ⟨b, hb⟩ := h a (List.mem_cons_self a as)
      obtain ⟨ys, hys, hlen, hget⟩ := ih (fun x hx => h x (List.mem_cons_of_mem a hx))
      refine ⟨b :: ys, ?_, by simpa using hlen, ?_⟩
      · rw [List.mapM_cons, hb, hys]; rfl
      · intro i hi hj
        cases i with
        | zero => simpa using hb
        | succ k =>
            simpa using hget k (by simpa using hi) (by simpa using hj)

/-- A successful traversal has one result per input element. -/
theorem mapM_ok_length {α β : Type} (f : α → Except CourseErr β)
    (l : List α) (ys : List β) (h : l.mapM f = .ok ys) :
    ys.length = l.length := by
  induction l generalizing ys with
  | nil =>
      rw [List.mapM_nil] at h
      cases h; rfl
  | cons a as ih =>
      rw [List.mapM_cons] at h
      cases hfa : f a with
      | error e => rw [hfa] at h; cases h
      | ok b =>
          rw [hfa] at h
          cases hys : as.mapM f with
          | error e => rw [hys] at h; cases h
          | ok zs =>
              rw [hys] at h
              cases h
              simpa using ih zs hys

/-- `stripStamps` is `Except.map` of the elementwise stamp erasure. -/
theorem stripStamps_eq (r : Except CourseErr (List CourseEvent)) :
    stripStamps r = r.map (List.map eraseStamp) := by
  cases r <;> rfl

/-- Traversals that agree elementwise after stamp erasure agree after
stamp erasure. -/
theorem mapM_congr_eraseStamp {α : Type} (f g : α → Except CourseErr CourseEvent)
    (l : List α)
    (h : ∀ x ∈ l, (f x).map eraseStamp = (g x).map eraseStamp) :
    (l.mapM f).map (List.map eraseStamp) = (l.mapM g).map (List.map eraseStamp) := by
  induction l with
  | nil => rfl
  | cons a as ih =>
      have ha := h a (List.mem_cons_self a as)
      have has := ih (fun x hx => h x (List.mem_cons_of_mem a hx))
      rw [List.mapM_cons, List.mapM_cons]
      cases hfa : f a with
      | error e =>
          rw [hfa] at ha
          cases hga : g a with
          | error e2 =>
              rw [hga] at ha
              cases ha; rfl
          | ok b2 => rw [hga] at ha; cases ha
      | ok b =>
          cases hga : g a with
          | error e2 => rw [hfa, hga] at ha; cases ha
          | ok b2 =>
              rw [hfa, hga] at ha
              have hb : eraseStamp b = eraseStamp b2 := by
                simpa [Except.map] using ha
              cases hmf : as.mapM f with
              | error e =>
                  cases hmg : as.mapM g with
                  | error e2 =>
                      rw [hmf, hmg] at has
                      simp only [Except.map] at has
                      cases has; rfl
                  | ok zs => rw [hmf, hmg] at has; simp [Except.map] at has
              | ok ys =>
                  cases hmg : as.mapM g with
                  | error e2 => rw [hmf, hmg] at has; simp [Except.map] at has
                  | ok zs =>
                      rw [hmf, hmg] at has
                      simp only [Except.map, Except.ok.injEq] at has
                      show Except.map (List.map eraseStamp) (Except.ok (b :: ys))
                        = Except.map (List.map eraseStamp) (Except.ok (b2 :: zs))
                      simp only [Except.map, Except.ok.injEq, List.map_cons]
                      rw [hb, has]


/-! Claim theorems. -/

/-- C1, counterexample: with reference date 2020-12-28 (ordinal 737787,
Monday of ISO week 53 of 2020) and the even-parity Monday spec, the anchor
calculator returns 2021-01-04 (ordinal 737794), whose ISO week number is 1,
which is odd — the claimed parity guarantee fails for parity EVEN. -/
theorem C1_counterexample :
    parseDate "2020-12-28" = some 737787 ∧
    isoWeek 737787 = 53 ∧
    firstClassDate 737787 1 WeekType.even = 737794 ∧
    isoWeek 737794 = 1 ∧
    ¬ (isoWeek (firstClassDate 737787 1 WeekType.even) % 2 = 0) := by
  exact ⟨rfl, rfl, rfl, rfl, by decide⟩

/-- C1, amended: for every reference date and weekday spec, the first
occurrence returned by the anchor calculator has an ISO week number of the
requested parity, for parity ODD always, and for parity EVEN whenever the
unadjusted candidate does not fall in ISO week 53 of a 53-week ISO year
(in which case the one-week adjustment lands in ISO week 1, which is odd,
and the guarantee fails). -/
theorem C1_parity_amended (referenceDate day : Int) (weekType : WeekType) :
    (weekType = WeekType.odd →
      isoWeek (firstClassDate referenceDate day weekType) % 2 = 1)
  ∧ (weekType = WeekType.even →
      isoWeek (rawCandidate (weekStartDate referenceDate) day) ≠ 53 →
      isoWeek (firstClassDate referenceDate day weekType) % 2 = 0) := by
  obtain ⟨c, hc⟩ : ∃ c, rawCandidate (weekStartDate referenceDate) day = c := ⟨_, rfl⟩
  have hstep := isoWeek_step c
  constructor
  · intro h; subst h
    unfold firstClassDate adjustParity
    rw [hc]
    rw [if_neg (by simp)]
    by_cases h2 : isoWeek c % 2 = 0
    · rw [if_pos ⟨rfl, h2⟩]
      rcases hstep with h | ⟨h, h'⟩ <;> omega
    · rw [if_neg (fun hh => h2 hh.2)]
      omega
  · intro h h53; subst h
    rw [hc] at h53
    unfold firstClassDate adjustParity
    rw [hc]
    by_cases h2 : isoWeek c % 2 ≠ 0
    · rw [if_pos ⟨rfl, h2⟩]
      rcases hstep with h | ⟨h, h'⟩ <;> omega
    · rw [if_neg (fun hh => h2 hh.2), if_neg (by simp)]
      omega

/-- C1, witness: the amended theorem applied at the scenario reference
date 2024-09-02 (ordinal 739131) with the odd-parity Monday spec. -/
theorem C1_parity_amended_witness :
    isoWeek (firstClassDate 739131 1 WeekType.odd) % 2 = 1 :=
  (C1_parity_amended 739131 1 WeekType.odd).1 rfl

/-- C2: for total weeks `n ≥ 1`, an event built for a parity-ALL entry has
interval 1 and count `n`, and one built for an ODD or EVEN entry has
interval 2 and count `(n + 1) / 2`, which is the least integer at least
`n / 2`. -/
theorem C2_interval_count (now : Int) (courseName location : String)
    (n : Int) (startTime endTime : Int × Int) (referenceDate day : Int)
    (weekType : WeekType) (hn : 1 ≤ n) :
    (weekType = WeekType.all →
      (courseEventFor now courseName location n startTime endTime
          referenceDate day weekType).rruleInterval = 1 ∧
      (courseEventFor now courseName location n startTime endTime
          referenceDate day weekType).rruleCount = n)
  ∧ (weekType ≠ WeekType.all →
      (courseEventFor now courseName location n startTime endTime
          referenceDate day weekType).rruleInterval = 2 ∧
      (courseEventFor now courseName location n startTime endTime
          referenceDate day weekType).rruleCount = (n + 1) / 2 ∧
      n ≤ 2 * ((n + 1) / 2) ∧ 2 * ((n + 1) / 2) < n + 2) := by
  cases weekType <;> simp [courseEventFor] <;> omega

/-- C2, witness: sixteen total weeks give count 16 for a parity-ALL entry
and count 8 for a parity-ODD entry. -/
theorem C2_interval_count_witness :
    (courseEventFor 0 "A" "B" 16 (8, 0) (9, 0) 739131 1
        WeekType.all).rruleCount = 16 ∧
    (courseEventFor 0 "A" "B" 16 (8, 0) (9, 0) 739131 1
        WeekType.odd).rruleCount = 8 :=
  ⟨((C2_interval_count 0 "A" "B" 16 (8, 0) (9, 0) 739131 1 WeekType.all
      (by norm_num)).1 rfl).2,
   by
     have := ((C2_interval_count 0 "A" "B" 16 (8, 0) (9, 0) 739131 1 WeekType.odd
       (by norm_num)).2 (by simp)).2.1
     simpa using this⟩

/-- C4: the candidate first-occurrence date before parity adjustment is
the Monday of the reference week plus `day - 1` days, hence lies in the
Monday-to-Sunday week of the reference date even when it precedes the
reference date; with parity ALL the returned first occurrence can precede
the reference date, as it does for reference 2024-09-03 (ordinal 739132,
a Tuesday) and a Monday entry. -/
theorem C4_candidate_in_reference_week (referenceDate day : Int)
    (h1 : 1 ≤ day) (h7 : day ≤ 7) :
    rawCandidate (weekStartDate referenceDate) day
        = weekStartDate referenceDate + (day - 1)
    ∧ weekStartDate referenceDate ≤ referenceDate
    ∧ referenceDate ≤ weekStartDate referenceDate + 6
    ∧ parseDate "2024-09-03" = some 739132
    ∧ firstClassDate 739132 1 WeekType.all < 739132 := by
  refine ⟨?_, ?_, ?_, rfl, by decide⟩
  · unfold rawCandidate weekStartDate pyWeekday
    omega
  · unfold weekStartDate pyWeekday
    omega
  · unfold weekStartDate pyWeekday
    omega

/-- C4, witness: the theorem applied at reference 2024-09-03 with a
Wednesday entry: the candidate is 2024-09-04, inside the reference week. -/
theorem C4_candidate_in_reference_week_witness :
    rawCandidate (weekStartDate 739132) 3 = weekStartDate 739132 + (3 - 1) :=
  (C4_candidate_in_reference_week 739132 3 (by norm_num) (by norm_num)).1

/-- C6: with reference date 2024-09-02 (a Monday, ISO week 36), token "1"
anchors at 2024-09-02 with interval 1, token "1*" (parity ODD, week 36
even) anchors at 2024-09-09 in ISO week 37, and token "3**" (Wednesday,
parity EVEN) anchors at 2024-09-04 in week 36 without adjustment. -/
theorem C6_scenario :
    (process_course_data 0 scenarioCourseDoc).toOption.map
        (List.map fun e => (e.dtstartDate, e.rruleInterval))
      = some [(739131, 1), (739138, 2), (739133, 2)]
    ∧ parseDate "2024-09-02" = some 739131
    ∧ ymd2ord 2024 9 2 = 739131 ∧ ymd2ord 2024 9 9 = 739138
    ∧ ymd2ord 2024 9 4 = 739133
    ∧ isoWeek 739131 = 36 ∧ isoWeek 739138 = 37 :=
  ⟨rfl, rfl, rfl, rfl, rfl, rfl, rfl⟩

/-- C10: a week-marker document with a parseable start date and a zero or
negative `total_weeks` does not fail: the builder returns the empty event
list. -/
theorem C10_nonpositive_weeks (now : Int) (data : WeekmarksDoc) (sd : String)
    (D t : Int) (h1 : data.start_date = some sd) (h2 : parseDate sd = some D)
    (h3 : data.total_weeks = some t) (ht : t ≤ 0) :
    process_weekmarks_data now data = .ok [] := by
  have hr : pyRange t = [] := by
    unfold pyRange
    rw [show t.toNat = 0 by omega]
    rfl
  unfold process_weekmarks_data
  rw [h1]
  dsimp only
  rw [h2]
  dsimp only
  rw [h3]
  dsimp only [Option.getD]
  rw [hr]
  rfl

/-- C10, witness: the theorem applied to a document with start date
2024-09-04 and `total_weeks = -2`. -/
theorem C10_nonpositive_weeks_witness :
    process_weekmarks_data 0 { scenarioWeekmarksDoc with total_weeks := some (-2) }
      = .ok [] :=
  C10_nonpositive_weeks 0 _ "2024-09-04" 739133 (-2) rfl rfl rfl (by norm_num)

/-- C3: every token consisting of a day digit 1..7, optionally followed by
one or two stars, parses to that day with parity ALL, ODD or EVEN
respectively; and in general the parser succeeds exactly when, after
whitespace stripping and removal of the parity suffix, the remaining text
is accepted by Python `int()` with a value in 1..7. -/
theorem C3_weekday_codes :
    (∀ d : Int, 1 ≤ d → d ≤ 7 →
      parse_weekday_string (String.mk (intToChars d))
          = .ok (d, WeekType.all, weekdayAbbrev d)
      ∧ parse_weekday_string (String.mk (intToChars d ++ ['*']))
          = .ok (d, WeekType.odd, weekdayAbbrev d)
      ∧ parse_weekday_string (String.mk (intToChars d ++ ['*', '*']))
          = .ok (d, WeekType.even, weekdayAbbrev d))
  ∧ (∀ s : String,
      (∃ v, parse_weekday_string s = .ok v) ↔
      (∃ n, pyInt (splitParitySuffix (stripChars s.data)).1 = some n
            ∧ 1 ≤ n ∧ n ≤ 7)) := by
  constructor
  · intro d h1 h7
    interval_cases d <;> exact ⟨rfl, rfl, rfl⟩
  · intro s
    unfold parse_weekday_string
    cases hsp : splitParitySuffix (stripChars s.data) with
    | mk ds wt =>
        dsimp only
        cases hpi : pyInt ds with
        | none => simp
        | some n =>
            dsimp only
            by_cases hr : 1 ≤ n ∧ n ≤ 7
            · rw [if_pos hr]
              exact ⟨fun _ => ⟨n, rfl, hr.1, hr.2⟩, fun _ => ⟨_, rfl⟩⟩
            · rw [if_neg hr]
              constructor
              · rintro ⟨v, hv⟩; cases hv
              · rintro ⟨n', hn', hl, hu⟩
                cases hn'
                exact absurd ⟨hl, hu⟩ hr

/-- C3, witness: the theorem applied at day 3 gives that the token "3*"
parses as Wednesday on odd weeks. -/
theorem C3_weekday_codes_witness :
    parse_weekday_string "3*" = .ok (3, WeekType.odd, "WE") :=
  (C3_weekday_codes.1 3 (by norm_num) (by norm_num)).2.1

/-- C5: for a week-marker document with a parseable start date and
`total_weeks = n >= 1`, the builder returns exactly `n` descriptors;
descriptor `i` spans the all-day range from `M + 7 i` inclusive to
`M + 7 (i + 1)` exclusive, where `M` is the Monday of the start week, and
its title substitutes `startNumber + i` into the name template; hence
consecutive ranges are contiguous and each spans exactly 7 days. -/
theorem C5_weekmarks_shape (now : Int) (data : WeekmarksDoc) (sd tpl : String)
    (D n s0 : Int)
    (h1 : data.start_date = some sd) (h2 : parseDate sd = some D)
    (h3 : data.total_weeks = some n) (hn : 1 ≤ n)
    (h4 : data.name = some tpl) (h5 : data.start_number = some s0) :
    ∃ evs, process_weekmarks_data now data = .ok evs ∧
      evs.length = n.toNat ∧
      (∀ i (hi : i < evs.length), evs.get ⟨i, hi⟩ =
        { summary := pyFormat tpl (s0 + (i : Int))
          dtstart := weekStartDate D + 7 * (i : Int)
          dtend := weekStartDate D + 7 * (i : Int) + 7
          dtstamp := now }) ∧
      (∀ i (hi : i < evs.length) (hj : i + 1 < evs.length),
        (evs.get ⟨i, hi⟩).dtend = (evs.get ⟨i + 1, hj⟩).dtstart) ∧
      (∀ i (hi : i < evs.length),
        (evs.get ⟨i, hi⟩).dtend - (evs.get ⟨i, hi⟩).dtstart = 7) := by
  have hres : process_weekmarks_data now data =
      .ok ((pyRange n).map (fun i =>
        { summary := pyFormat tpl (s0 + i)
          dtstart := weekStartDate D + 7 * i
          dtend := weekStartDate D + 7 * i + 7
          dtstamp := now })) := by
    unfold process_weekmarks_data
    rw [h1]
    dsimp only
    rw [h2]
    dsimp only
    rw [h3, h4, h5]
    rfl
  have hP : ∀ i (hi : i < ((pyRange n).map (fun i =>
        ({ summary := pyFormat tpl (s0 + i)
           dtstart := weekStartDate D + 7 * i
           dtend := weekStartDate D + 7 * i + 7
           dtstamp := now } : WeekEvent))).length),
      ((pyRange n).map (fun i =>
        ({ summary := pyFormat tpl (s0 + i)
           dtstart := weekStartDate D + 7 * i
           dtend := weekStartDate D + 7 * i + 7
           dtstamp := now } : WeekEvent))).get ⟨i, hi⟩ =
        { summary := pyFormat tpl (s0 + (i : Int))
          dtstart := weekStartDate D + 7 * (i : Int)
          dtend := weekStartDate D + 7 * (i : Int) + 7
          dtstamp := now } := by
    intro i hi
    simp only [List.get_eq_getElem, List.getElem_map, pyRange,
      List.getElem_range, Int.ofNat_eq_coe]
  refine ⟨_, hres, ?_, hP, ?_, ?_⟩
  · simp [pyRange]
  · intro i hi hj
    rw [hP i hi, hP (i + 1) hj]
    push_cast
    ring
  · intro i hi
    rw [hP i hi]
    ring

/-- C5, witness: the theorem applied to the scenario document with start
date 2024-09-04 (ordinal 739133), three weeks numbered from 1. -/
theorem C5_weekmarks_shape_witness :
    ∃ evs, process_weekmarks_data 0 scenarioWeekmarksDoc = .ok evs ∧
      evs.length = (3 : Int).toNat ∧
      (∀ i (hi : i < evs.length), evs.get ⟨i, hi⟩ =
        { summary := pyFormat "Week \x7b\x7d" (1 + (i : Int))
          dtstart := weekStartDate 739133 + 7 * (i : Int)
          dtend := weekStartDate 739133 + 7 * (i : Int) + 7
          dtstamp := 0 }) ∧
      (∀ i (hi : i < evs.length) (hj : i + 1 < evs.length),
        (evs.get ⟨i, hi⟩).dtend = (evs.get ⟨i + 1, hj⟩).dtstart) ∧
      (∀ i (hi : i < evs.length),
        (evs.get ⟨i, hi⟩).dtend - (evs.get ⟨i, hi⟩).dtstart = 7) :=
  C5_weekmarks_shape 0 scenarioWeekmarksDoc "2024-09-04" "Week \x7b\x7d" 739133 3 1
    rfl rfl rfl (by norm_num) rfl rfl

/-- C7: a malformed course document makes the builder fail without
returning any event list: a missing required key reports the missing keys,
a non-list `weekday` field is rejected, an unparseable date or time field
is rejected, a bad weekday token anywhere in the list aborts the whole
call, and any successful call returns one event per weekday entry (so no
partial lists are ever returned). -/
theorem C7_abort_on_malformed (now : Int) (data : CourseDoc) :
    (scheduleMissingKeys data ≠ [] →
      process_course_data now data
        = .error (.missingKeys (scheduleMissingKeys data)))
  ∧ (scheduleMissingKeys data = [] →
     (∀ xs, data.weekday ≠ some (.items xs)) →
      process_course_data now data = .error .weekdayNotList)
  ∧ (validate_json data = .ok () →
     (parseTime (data.start_time.getD "") = none ∨
      parseTime (data.end_time.getD "") = none ∨
      parseDate (data.start_date.getD "") = none) →
      process_course_data now data = .error .badDateTime)
  ∧ (∀ item ∈ weekdayItems data, ∀ e, parse_weekday_string item = .error e →
      ∃ e', process_course_data now data = .error e')
  ∧ (∀ evs, process_course_data now data = .ok evs →
      evs.length = (weekdayItems data).length) := by
  refine ⟨?_, ?_, ?_, ?_, ?_⟩
  · intro h
    unfold process_course_data validate_json
    rw [if_pos h]
  · intro h1 h2
    unfold process_course_data validate_json
    rw [if_neg (by simp [h1])]
    cases hw : data.weekday with
    | none => rfl
    | some wf =>
        cases wf with
        | notAList => rfl
        | items xs => exact absurd hw (h2 xs)
  · intro hv hp
    unfold process_course_data
    rw [hv]
    dsimp only
    cases hst : parseTime (data.start_time.getD "") <;>
      cases het : parseTime (data.end_time.getD "") <;>
        cases hsd : parseDate (data.start_date.getD "") <;>
          first
            | rfl
            | (rcases hp with hp | hp | hp <;> simp_all)
  · intro item hmem e he
    cases hv : validate_json data with
    | error e0 =>
        exact ⟨e0, by unfold process_course_data; rw [hv]⟩
    | ok u =>
        cases u
        cases hst : parseTime (data.start_time.getD "") with
        | none =>
            exact ⟨.badDateTime, by
              unfold process_course_data; rw [hv]; dsimp only; rw [hst]⟩
        | some stv =>
            cases het : parseTime (data.end_time.getD "") with
            | none =>
                exact ⟨.badDateTime, by
                  unfold process_course_data
                  rw [hv]; dsimp only; rw [hst, het]⟩
            | some etv =>
                cases hsd : parseDate (data.start_date.getD "") with
                | none =>
                    exact ⟨.badDateTime, by
                      unfold process_course_data
                      rw [hv]; dsimp only; rw [hst, het, hsd]⟩
                | some refD =>
                    have hf : (fun item =>
                        match parse_weekday_string item with
                        | .error e => Except.error e
                        | .ok pw =>
                            Except.ok (courseEventFor now
                              (data.course_name.getD "")
                              (data.location.getD "") (data.total_weeks.getD 0)
                              stv etv refD pw.1 pw.2.1)) item
                        = Except.error e := by
                      dsimp only
                      rw [he]
                    obtain ⟨e', h'⟩ :=
                      mapM_error_of_mem (fun item =>
                        match parse_weekday_string item with
                        | .error e => Except.error e
                        | .ok pw =>
                            Except.ok (courseEventFor now
                              (data.course_name.getD "")
                              (data.location.getD "") (data.total_weeks.getD 0)
                              stv etv refD pw.1 pw.2.1))
                        (weekdayItems data) item hmem e hf
                    exact ⟨e', by
                      unfold process_course_data
                      rw [hv]; dsimp only; rw [hst, het, hsd]; dsimp only
                      exact h'⟩
  · intro evs h
    unfold process_course_data at h
    cases hv : validate_json data with
    | error e0 => rw [hv] at h; cases h
    | ok u =>
        cases u
        rw [hv] at h
        dsimp only at h
        cases hst : parseTime (data.start_time.getD "") <;> rw [hst] at h
        case none => cases h
        case some stv =>
        cases het : parseTime (data.end_time.getD "") <;> rw [het] at h
        case none => cases h
        case some etv =>
        cases hsd : parseDate (data.start_date.getD "") <;> rw [hsd] at h
        case none => cases h
        case some refD =>
        dsimp only at h
        exact mapM_ok_length _ _ _ h

/-- C7, witness: the theorem applied to the empty document, which is
missing all seven required keys. -/
theorem C7_abort_on_malformed_witness :
    process_course_data 0
      { course_name := none, location := none, start_date := none,
        weekday := none, start_time := none, end_time := none,
        total_weeks := none }
      = .error (.missingKeys SCHEDULE_REQUIRED_KEYS) :=
  (C7_abort_on_malformed 0
    { course_name := none, location := none, start_date := none,
      weekday := none, start_time := none, end_time := none,
      total_weeks := none }).1 (by decide)

/-- C8: on a fully well-formed course document the builder succeeds and
returns exactly one recurring event per weekday entry, in entry order;
each event is the one built from its entry and carries the course name as
title and the course location. -/
theorem C8_one_event_per_entry (now : Int) (data : CourseDoc)
    (cn loc sd st et : String) (tw : Int) (items : List String)
    (stv etv : Int × Int) (refD : Int)
    (hcn : data.course_name = some cn) (hloc : data.location = some loc)
    (hsd : data.start_date = some sd)
    (hw : data.weekday = some (.items items))
    (hst : data.start_time = some st) (het : data.end_time = some et)
    (htw : data.total_weeks = some tw)
    (hstv : parseTime st = some stv) (hetv : parseTime et = some etv)
    (hrefD : parseDate sd = some refD)
    (hitems : ∀ item ∈ items, ∃ v, parse_weekday_string item = .ok v) :
    ∃ evs, process_course_data now data = .ok evs ∧
      evs.length = items.length ∧
      ∀ i (hi : i < items.length) (hj : i < evs.length),
        ∃ v, parse_weekday_string (items.get ⟨i, hi⟩) = .ok v ∧
          evs.get ⟨i, hj⟩ = courseEventFor now cn loc tw stv etv refD v.1 v.2.1 ∧
          (evs.get ⟨i, hj⟩).summary = cn ∧ (evs.get ⟨i, hj⟩).location = loc := by
  have hv : validate_json data = .ok () := by
    unfold validate_json
    rw [if_neg ?_]
    · rw [hw]
    · simp [scheduleMissingKeys, SCHEDULE_REQUIRED_KEYS, hasKey,
        hcn, hloc, hsd, hw, hst, het, htw]
  have hall : ∀ x ∈ items, ∃ y,
      (fun item =>
        match parse_weekday_string item with
        | .error e => Except.error e
        | .ok pw =>
            Except.ok (courseEventFor now cn loc tw stv etv refD pw.1 pw.2.1)) x
      = Except.ok y := by
    intro x hx
    obtain ⟨v, hv'⟩ := hitems x hx
    exact ⟨courseEventFor now cn loc tw stv etv refD v.1 v.2.1, by
      dsimp only
      rw [hv']⟩
  obtain ⟨ys, hys, hlen, hget⟩ :=
    mapM_ok_of_all_ok (fun item =>
      match parse_weekday_string item with
      | .error e => Except.error e
      | .ok pw =>
          Except.ok (courseEventFor now cn loc tw stv etv refD pw.1 pw.2.1))
      items hall
  have hproc : process_course_data now data = items.mapM (fun item =>
      match parse_weekday_string item with
      | .error e => Except.error e
      | .ok pw =>
          Except.ok (courseEventFor now cn loc tw stv etv refD pw.1 pw.2.1)) := by
    unfold process_course_data
    rw [hv]
    dsimp only
    rw [hst, het, hsd]
    dsimp only [Option.getD]
    rw [hstv, hetv, hrefD]
    dsimp only
    unfold weekdayItems
    rw [hw, hcn, hloc, htw]
  refine ⟨ys, by rw [hproc, hys], by omega, ?_⟩
  intro i hi hj
  obtain ⟨v, hv'⟩ := hitems (items.get ⟨i, hi⟩) (items.get_mem _ _)
  have hgi := hget i hi (by omega)
  simp only [hv', Except.ok.injEq] at hgi
  have heq : ys.get ⟨i, hj⟩
      = courseEventFor now cn loc tw stv etv refD v.1 v.2.1 := hgi.symm
  exact ⟨v, hv', heq, by rw [heq]; rfl, by rw [heq]; rfl⟩

/-- C8, witness: the theorem applied to the scenario document, whose three
entries all parse. -/
theorem C8_one_event_per_entry_witness :
    ∃ evs, process_course_data 0 scenarioCourseDoc = .ok evs ∧
      evs.length = (["1", "1*", "3**"] : List String).length ∧
      ∀ i (hi : i < (["1", "1*", "3**"] : List String).length)
          (hj : i < evs.length),
        ∃ v, parse_weekday_string ((["1", "1*", "3**"] : List String).get ⟨i, hi⟩)
            = .ok v ∧
          evs.get ⟨i, hj⟩ = courseEventFor 0 "Algorithms" "Room 101" 16
            (8, 0) (9, 40) 739131 v.1 v.2.1 ∧
          (evs.get ⟨i, hj⟩).summary = "Algorithms" ∧
          (evs.get ⟨i, hj⟩).location = "Room 101" :=
  C8_one_event_per_entry 0 scenarioCourseDoc "Algorithms" "Room 101"
    "2024-09-02" "08:00" "09:40" 16 ["1", "1*", "3**"] (8, 0) (9, 40) 739131
    rfl rfl rfl rfl rfl rfl rfl rfl rfl rfl
    (by
      intro item hitem
      fin_cases hitem
      · exact ⟨(1, WeekType.all, "MO"), rfl⟩
      · exact ⟨(1, WeekType.odd, "MO"), rfl⟩
      · exact ⟨(3, WeekType.even, "WE"), rfl⟩)

/-- C9: the course builder is deterministic up to the informational
creation timestamp: two runs on the same document, with any two values of
the ambient clock, return results that agree once every `dtstamp` is
erased; in particular every other field is a function of the document
alone. -/
theorem C9_deterministic_up_to_stamp (data : CourseDoc) (now1 now2 : Int) :
    stripStamps (process_course_data now1 data)
      = stripStamps (process_course_data now2 data) := by
  unfold process_course_data
  cases hv : validate_json data with
  | error e => rfl
  | ok u =>
      cases u
      dsimp only
      cases hst : parseTime (data.start_time.getD "") <;>
        cases het : parseTime (data.end_time.getD "") <;>
          cases hsd : parseDate (data.start_date.getD "") <;>
            dsimp only
      rw [stripStamps_eq, stripStamps_eq]
      apply mapM_congr_eraseStamp
      intro x hx
      cases hpx : parse_weekday_string x <;> simp only [Except.map] <;> rfl
